import Mathlib

/-!
# Verification of the Slowfetch rendering core

Shallow embedding of the layout/rendering engine of the Slowfetch repository
(`src/renderer.rs`, `src/terminalsize.rs`, `src/colorcontrol.rs`).

Rust `String`s are modeled as lists of byte values (`List Nat`); the renderer
only ever inspects bytes, so this is faithful.  `'\x1b'` is `27`, `'m'` is
`109`, `' '` is `32`.
-/

namespace Slowfetch

/-- Auxiliary state machine for `visible_len` (renderer.rs, lines 19-49):
`inside` is the `inside_ansi_escape` flag, the result is the count of visible
columns produced by the remaining bytes. -/
def visGo : Bool → List Nat → Nat
  | _, [] => 0
  | inside, b :: rest =>
    if b = 27 then visGo true rest
    else if inside then
      (if b = 109 then visGo false rest else visGo true rest)
    else if b < 128 then 1 + visGo false rest
    else if Nat.land b 192 = 128 then visGo false rest
    else 1 + visGo false rest

/-- `visible_len` (renderer.rs): visible character width of a string, ignoring
ANSI escape codes (from ESC up to and including the next `m` byte) and UTF-8
continuation bytes. -/
def visible_len (s : List Nat) : Nat := visGo false s

/-- The `inside_ansi_escape` state after scanning `s`, mirroring the branch
structure of `visGo` exactly. -/
def stGo : Bool → List Nat → Bool
  | inside, [] => inside
  | inside, b :: rest =>
    if b = 27 then stGo true rest
    else if inside then
      (if b = 109 then stGo false rest else stGo true rest)
    else if b < 128 then stGo false rest
    else if Nat.land b 192 = 128 then stGo false rest
    else stGo false rest

/-- Rust `str::chars().count()` on a valid UTF-8 string equals the number of
non-continuation bytes; this models the `title.chars().count()` and
`title.chars().count()`-style width computations. -/
def scalarCount : List Nat → Nat
  | [] => 0
  | b :: rest => (if Nat.land b 192 = 128 then 0 else 1) + scalarCount rest

/-- Fueled decimal rendering: the byte string of the base-10 numeral of `n`
(what Rust's `format!` emits for an unsigned integer). -/
def decBytesAux : Nat → Nat → List Nat
  | 0, _ => []
  | fuel + 1, n =>
    if n < 10 then [n + 48]
    else decBytesAux fuel (n / 10) ++ [n % 10 + 48]

/-- Decimal digit bytes of `n`. -/
def decBytes (n : Nat) : List Nat := decBytesAux (n + 1) n

/-- The SGR truecolor prefix `"\x1b[38;2;r;g;bm"` that `tintify`'s
`truecolor(r, g, b)` prepends (colorcontrol.rs). -/
def sgrOpen (rgb : Nat × Nat × Nat) : List Nat :=
  [27, 91, 51, 56, 59, 50, 59] ++ decBytes rgb.1 ++ [59] ++ decBytes rgb.2.1
    ++ [59] ++ decBytes rgb.2.2 ++ [109]

/-- The SGR reset suffix `"\x1b[0m"`. -/
def ansiReset : List Nat := [27, 91, 48, 109]

/-- `text.truecolor(r,g,b).to_string()`: prefix, text, reset. -/
def colorWrap (rgb : Nat × Nat × Nat) (text : List Nat) : List Nat :=
  sgrOpen rgb ++ text ++ ansiReset

/-- The resolved color palette (configloader.rs `ColorConfig`), threaded
explicitly instead of the source's global `OnceLock`. -/
structure ColorConfig where
  border : Nat × Nat × Nat
  title : Nat × Nat × Nat
  key : Nat × Nat × Nat
  value : Nat × Nat × Nat

/-- The default (Dracula-inspired) palette from configloader.rs. -/
def default_colors : ColorConfig :=
  ⟨(255, 121, 198), (255, 121, 198), (189, 147, 249), (139, 233, 253)⟩

/-- `color_border` (colorcontrol.rs). -/
def color_border (cfg : ColorConfig) (text : List Nat) : List Nat :=
  colorWrap cfg.border text

/-- `color_title` (colorcontrol.rs). -/
def color_title (cfg : ColorConfig) (text : List Nat) : List Nat :=
  colorWrap cfg.title text

/-- `color_key` (colorcontrol.rs). -/
def color_key (cfg : ColorConfig) (text : List Nat) : List Nat :=
  colorWrap cfg.key text

/-- `color_value` (colorcontrol.rs). -/
def color_value (cfg : ColorConfig) (text : List Nat) : List Nat :=
  colorWrap cfg.value text

/-- UTF-8 bytes of `"╭"` (U+256D). -/
def boxTopLeft : List Nat := [226, 149, 173]

/-- UTF-8 bytes of `"╮"` (U+256E). -/
def boxTopRight : List Nat := [226, 149, 174]

/-- UTF-8 bytes of `"╰"` (U+2570). -/
def boxBottomLeft : List Nat := [226, 149, 176]

/-- UTF-8 bytes of `"╯"` (U+256F). -/
def boxBottomRight : List Nat := [226, 149, 175]

/-- UTF-8 bytes of `"─"` (U+2500). -/
def boxHorizontal : List Nat := [226, 148, 128]

/-- UTF-8 bytes of `"│"` (U+2502). -/
def boxVertical : List Nat := [226, 148, 130]

/-- `BOX_HORIZONTAL.repeat(n)`. -/
def dashes (n : Nat) : List Nat := (List.replicate n boxHorizontal).flatten

/-- `" ".repeat(n)`. -/
def spaces (n : Nat) : List Nat := List.replicate n 32

/-- `Section` (renderer.rs): a titled group of key/value display rows. -/
structure Section where
  title : List Nat
  lines : List (List Nat × List Nat)

/-- `content_width` of `build_box` (renderer.rs line 88): widest visible
content line, `0` for no lines (`max().unwrap_or(0)`). -/
def content_width (lines : List (List Nat)) : Nat :=
  (lines.map visible_len).foldr max 0

/-- `title_char_count` of `build_box` (renderer.rs line 91):
`title.map_or(0, |t| t.chars().count())`. -/
def title_width : Option (List Nat) → Nat
  | none => 0
  | some t => scalarCount t

/-- `box_inner_width` of `build_box` (renderer.rs lines 94-95):
`target_width.unwrap_or(minimum_width).max(minimum_width)` with
`minimum_width = content_width.max(title_char_count)`. -/
def box_inner_width (lines : List (List Nat)) (title : Option (List Nat))
    (target_width : Option Nat) : Nat :=
  max (target_width.getD (max (content_width lines) (title_width title)))
    (max (content_width lines) (title_width title))

/-- `box_total_height` of `build_box` (renderer.rs lines 98-100):
`target_height.unwrap_or(minimum_height).max(minimum_height)` with
`minimum_height = lines.len() + 2`. -/
def box_total_height (lines : List (List Nat)) (target_height : Option Nat) : Nat :=
  max (target_height.getD (lines.length + 2)) (lines.length + 2)

/-- Horizontal padding split for one content line (renderer.rs lines 150-159):
centered content gets `left = pad/2, right = pad - left`; left-aligned content
gets all padding on the right. -/
def pad_split (center_content : Bool) (total_padding : Nat) : Nat × Nat :=
  if center_content then (total_padding / 2, total_padding - total_padding / 2)
  else (0, total_padding)

/-- Dash counts surrounding a title in the top border (renderer.rs lines
120-122): `total = inner.saturating_sub(count)`, `left = total/2`,
`right = total - left`. -/
def title_dashes (box_inner_width title_char_count : Nat) : Nat × Nat :=
  (box_inner_width - title_char_count) / 2 |>
    fun l => (l, (box_inner_width - title_char_count) - l)

/-- One content row of a box (renderer.rs lines 149-169):
`"{border} {left_pad}{line}{right_pad} {border}"`. -/
def content_row (cfg : ColorConfig) (inner : Nat) (center_content : Bool)
    (line : List Nat) : List Nat :=
  let ps := pad_split center_content (inner - visible_len line)
  color_border cfg boxVertical ++ [32] ++ spaces ps.1 ++ line ++ spaces ps.2
    ++ [32] ++ color_border cfg boxVertical

/-- `build_box` (renderer.rs lines 75-187): a bordered box around content
lines, with optional centered title in the top border, optional minimum
width/height, and center or left alignment. -/
def build_box (cfg : ColorConfig) (lines : List (List Nat))
    (title : Option (List Nat)) (target_width target_height : Option Nat)
    (center_content : Bool) : List (List Nat) :=
  let inner := box_inner_width lines title target_width
  let total_height := box_total_height lines target_height
  let total_vertical_padding := total_height - (lines.length + 2)
  let top_padding_rows := total_vertical_padding / 2
  let bottom_padding_rows := total_vertical_padding - top_padding_rows
  let cv := color_border cfg boxVertical
  let chl := color_border cfg (dashes (inner + 2))
  let empty_padding_row := cv ++ spaces (inner + 2) ++ cv
  let top_border := match title with
    | some t =>
      let ds := title_dashes inner (scalarCount t)
      color_border cfg boxTopLeft ++ color_border cfg (dashes ds.1) ++ [32]
        ++ color_title cfg t ++ [32] ++ color_border cfg (dashes ds.2)
        ++ color_border cfg boxTopRight
    | none => color_border cfg boxTopLeft ++ chl ++ color_border cfg boxTopRight
  let bottom_border :=
    color_border cfg boxBottomLeft ++ chl ++ color_border cfg boxBottomRight
  [top_border] ++ List.replicate top_padding_rows empty_padding_row
    ++ lines.map (content_row cfg inner center_content)
    ++ List.replicate bottom_padding_rows empty_padding_row ++ [bottom_border]

/-- `format!("{}: {}", color_key(key), color_value(value))`
(renderer.rs line 200). -/
def format_kv (cfg : ColorConfig) (kv : List Nat × List Nat) : List Nat :=
  color_key cfg kv.1 ++ [58, 32] ++ color_value cfg kv.2

/-- `max_content_width` of `build_sections_lines` (renderer.rs lines 207-216):
max over every section title's scalar count and every formatted line's visible
length. -/
def sections_max_width (cfg : ColorConfig) (sections : List Section) : Nat :=
  ((sections.map fun s =>
      scalarCount s.title :: s.lines.map fun kv => visible_len (format_kv cfg kv)).flatten).foldr
    max 0

/-- `build_sections_lines` (renderer.rs lines 192-235): one left-aligned box
per section, all at the unified width, concatenated. -/
def build_sections_lines (cfg : ColorConfig) (sections : List Section)
    (target_width : Option Nat) : List (List Nat) :=
  let unified := max (target_width.getD (sections_max_width cfg sections))
    (sections_max_width cfg sections)
  (sections.map fun s =>
    build_box cfg (s.lines.map (format_kv cfg)) (some s.title) (some unified)
      none false).flatten

/-- `art_width` (renderer.rs lines 239-241). -/
def art_width (art : List (List Nat)) : Nat :=
  (art.map visible_len).foldr max 0

/-- `sections_content_width` of `draw_layout` (renderer.rs lines 312-321):
max over every section title's scalar count and every
`visible_len(key) + 2 + visible_len(value)`. -/
def sections_content_width (sections : List Section) : Nat :=
  ((sections.map fun s =>
      scalarCount s.title
        :: s.lines.map fun kv => visible_len kv.1 + 2 + visible_len kv.2).flatten).foldr
    max 0

/-- `render_side_by_side` (renderer.rs lines 246-272): art rows (or blank runs
once the art is exhausted), one gap space, section rows, newline-terminated. -/
def render_side_by_side (art_box sections_box : List (List Nat)) : List Nat :=
  let total_row_count := max art_box.length sections_box.length
  let art_padding_spaces := spaces (visible_len (art_box.headD []))
  ((List.range total_row_count).map fun i =>
    (if i < art_box.length then art_box.getD i [] else art_padding_spaces)
      ++ [32] ++ (if i < sections_box.length then sections_box.getD i [] else [])
      ++ [10]).flatten

/-- `render_stacked` (renderer.rs lines 275-286): art rows then section rows,
each newline-terminated. -/
def render_stacked (art_box sections_box : List (List Nat)) : List Nat :=
  ((art_box ++ sections_box).map fun line => line ++ [10]).flatten

/-- `draw_layout` (renderer.rs lines 297-386), with the result of
`get_terminal_size()` passed as `term` (it is an OS query; `draw_layout`
applies `unwrap_or((80, 24))` to it, line 334). -/
def draw_layout (cfg : ColorConfig) (wide_art medium_art narrow_art : List (List Nat))
    (sections : List Section) (smol_art : Option (List (List Nat)))
    (term : Option (Nat × Nat)) : List Nat :=
  let wide_art_width := art_width wide_art
  let medium_art_width := art_width medium_art
  let narrow_art_width := art_width narrow_art
  let smol_art_width := (smol_art.map art_width).getD 0
  let scw := sections_content_width sections
  let sections_box_width := scw + 4
  let wide_side_by_side_width := wide_art_width + 4 + 1 + sections_box_width
  let smol_side_by_side_width := smol_art_width + 4 + 1 + sections_box_width
  let medium_side_by_side_width := medium_art_width + 4 + 1 + sections_box_width
  let tw := (term.getD (80, 24)).1
  let th := (term.getD (80, 24)).2
  let sections_total_height := (sections.map fun s => s.lines.length + 2).sum
  let narrow_art_box_height := narrow_art.length + 2
  if wide_side_by_side_width ≤ tw then
    let sections_box := build_sections_lines cfg sections none
    let art_box := build_box cfg wide_art none none (some sections_box.length) true
    render_side_by_side art_box sections_box
  else if smol_art.isSome ∧ smol_side_by_side_width ≤ tw then
    let sections_box := build_sections_lines cfg sections none
    let art_box :=
      build_box cfg (smol_art.getD []) none none (some sections_box.length) true
    render_side_by_side art_box sections_box
  else if medium_side_by_side_width ≤ tw then
    let sections_box := build_sections_lines cfg sections none
    let art_box := build_box cfg medium_art none none (some sections_box.length) true
    render_side_by_side art_box sections_box
  else if smol_art.isSome ∧ sections_total_height + (smol_art.getD []).length + 2 ≤ th then
    let stacked_width := max smol_art_width scw
    let art_box := build_box cfg (smol_art.getD []) none (some stacked_width) none true
    let sections_box := build_sections_lines cfg sections (some stacked_width)
    render_stacked art_box sections_box
  else if sections_total_height + narrow_art_box_height ≤ th then
    let stacked_width := max narrow_art_width scw
    let art_box := build_box cfg narrow_art none (some stacked_width) none true
    let sections_box := build_sections_lines cfg sections (some stacked_width)
    render_stacked art_box sections_box
  else
    let sections_box := build_sections_lines cfg sections none
    (sections_box.map fun line => line ++ [10]).flatten

/-- Rust `str::parse::<u16>()` on a byte string: an optional leading `'+'`,
then one or more ASCII digits, value at most `65535`; anything else fails. -/
def parse_u16 (s : List Nat) : Option Nat :=
  let digits := match s with
    | 43 :: rest => rest
    | _ => s
  if digits = [] then none
  else if digits.all fun b => 48 ≤ b ∧ b ≤ 57 then
    let v := digits.foldl (fun acc d => acc * 10 + (d - 48)) 0
    if v ≤ 65535 then some v else none
  else none

/-- `get_size_from_env` (terminalsize.rs lines 64-68): parse `COLUMNS` then
`LINES` (each `None` when the variable is absent), failing out on the first
miss. -/
def get_size_from_env (columns lines : Option (List Nat)) : Option (Nat × Nat) :=
  match columns with
  | none => none
  | some cs =>
    match parse_u16 cs with
    | none => none
    | some cols =>
      match lines with
      | none => none
      | some rs =>
        match parse_u16 rs with
        | none => none
        | some rows => some (cols, rows)

/-- `get_terminal_size` (terminalsize.rs lines 21-43).  The `ioctl` syscall's
outcome is a parameter: `some (cols, rows)` when the syscall returned `0` with
that window size, `none` when it failed.  Its result is accepted only when
both dimensions are strictly positive; otherwise the environment fallback
runs. -/
def get_terminal_size (ioctl : Option (Nat × Nat))
    (columns lines : Option (List Nat)) : Option (Nat × Nat) :=
  match ioctl with
  | some (cols, rows) =>
    if 0 < cols ∧ 0 < rows then some (cols, rows)
    else get_size_from_env columns lines
  | none => get_size_from_env columns lines

/-- The geometry `draw_layout` actually uses (renderer.rs lines 332-334):
`get_terminal_size().unwrap_or((80, 24))`. -/
def probed_geometry (ioctl : Option (Nat × Nat))
    (columns lines : Option (List Nat)) : Nat × Nat :=
  (get_terminal_size ioctl columns lines).getD (80, 24)

/-! ## Spec-side definitions

The remaining definitions are written from the specification's words, to be
compared with the source-derived definitions above. -/

/-- Spec-side: remove every ANSI escape sequence, where a sequence runs from an
ESC (0x1B) byte up to and including the next `m` byte (spec §4.2). -/
def strip_ansi_go : Bool → List Nat → List Nat
  | _, [] => []
  | inside, b :: rest =>
    if b = 27 then strip_ansi_go true rest
    else if inside then
      (if b = 109 then strip_ansi_go false rest else strip_ansi_go true rest)
    else b :: strip_ansi_go false rest

/-- Spec-side `strip_ansi`: drop the bytes of every ANSI escape sequence. -/
def strip_ansi (s : List Nat) : List Nat := strip_ansi_go false s

/-- Spec-side environment tier (spec §4.1): both variables parsed as decimal
integers; if both parse return them, otherwise the fixed 80x24 default. -/
def spec_env_tier (columns lines : Option (List Nat)) : Nat × Nat :=
  match columns.bind parse_u16, lines.bind parse_u16 with
  | some cols, some rows => (cols, rows)
  | _, _ => (80, 24)

/-- Spec-side three-tier probe (spec §4.1): the OS window-size query accepted
only when both dimensions are strictly positive, then the environment
variables, then the fixed 80x24 default; never fails. -/
def spec_probe (ioctl : Option (Nat × Nat))
    (columns lines : Option (List Nat)) : Nat × Nat :=
  match ioctl with
  | some (cols, rows) =>
    if 0 < cols ∧ 0 < rows then (cols, rows)
    else spec_env_tier columns lines
  | none => spec_env_tier columns lines

/-- The six layout strategies of the spec's priority table (spec §4.5). -/
inductive LayoutChoice where
  | sideWide
  | sideCompact
  | sideMedium
  | stackedCompact
  | stackedNarrow
  | sectionsOnly
deriving DecidableEq

/-- Spec-side `sectionsContentWidth` (spec §4.5): the max over every section
title's scalar count and every rendered `"key: value"` line's visible width. -/
def spec_sections_content_width (cfg : ColorConfig) (sections : List Section) : Nat :=
  ((sections.map fun s =>
      scalarCount s.title
        :: s.lines.map fun kv => visible_len (format_kv cfg kv)).flatten).foldr
    max 0

/-- Spec-side width needed for "art beside sections" (spec §4.5):
art box width + 1 gap + sections box width. -/
def spec_side_width (cfg : ColorConfig) (art : List (List Nat))
    (sections : List Section) : Nat :=
  art_width art + 4 + 1 + (spec_sections_content_width cfg sections + 4)

/-- Spec-side height needed for "art above sections" (spec §4.5):
`len(artLines) + 2` plus `sum(len(section.lines) + 2)`. -/
def spec_stack_height (art : List (List Nat)) (sections : List Section) : Nat :=
  art.length + 2 + (sections.map fun s => s.lines.length + 2).sum

/-- Spec-side layout selection (spec §4.5): the six-row ordered decision list,
first matching condition wins. -/
def spec_select (cfg : ColorConfig) (wide_art medium_art narrow_art : List (List Nat))
    (sections : List Section) (smol_art : Option (List (List Nat)))
    (tw th : Nat) : LayoutChoice :=
  if spec_side_width cfg wide_art sections ≤ tw then .sideWide
  else if smol_art.isSome ∧ spec_side_width cfg (smol_art.getD []) sections ≤ tw then
    .sideCompact
  else if spec_side_width cfg medium_art sections ≤ tw then .sideMedium
  else if smol_art.isSome ∧ spec_stack_height (smol_art.getD []) sections ≤ th then
    .stackedCompact
  else if spec_stack_height narrow_art sections ≤ th then .stackedNarrow
  else .sectionsOnly

/-- Execute one layout strategy (spec §4.5's composition descriptions, which
match the corresponding `draw_layout` branch bodies). -/
def layout_exec (cfg : ColorConfig) (wide_art medium_art narrow_art : List (List Nat))
    (sections : List Section) (smol_art : Option (List (List Nat))) :
    LayoutChoice → List Nat
  | .sideWide =>
    let sections_box := build_sections_lines cfg sections none
    render_side_by_side
      (build_box cfg wide_art none none (some sections_box.length) true) sections_box
  | .sideCompact =>
    let sections_box := build_sections_lines cfg sections none
    render_side_by_side
      (build_box cfg (smol_art.getD []) none none (some sections_box.length) true)
      sections_box
  | .sideMedium =>
    let sections_box := build_sections_lines cfg sections none
    render_side_by_side
      (build_box cfg medium_art none none (some sections_box.length) true) sections_box
  | .stackedCompact =>
    let w := max ((smol_art.map art_width).getD 0) (sections_content_width sections)
    render_stacked (build_box cfg (smol_art.getD []) none (some w) none true)
      (build_sections_lines cfg sections (some w))
  | .stackedNarrow =>
    let w := max (art_width narrow_art) (sections_content_width sections)
    render_stacked (build_box cfg narrow_art none (some w) none true)
      (build_sections_lines cfg sections (some w))
  | .sectionsOnly =>
    ((build_sections_lines cfg sections none).map fun line => line ++ [10]).flatten

/-- A well-behaved display segment: scanned from the outside-escape state it
contributes `n` visible columns and leaves the scanner outside any escape. -/
def Seg (s : List Nat) (n : Nat) : Prop :=
  visGo false s = n ∧ stGo false s = false

/-! ## Scanning lemmas -/

theorem visGo_append (i : Bool) (xs ys : List Nat) :
    visGo i (xs ++ ys) = visGo i xs + visGo (stGo i xs) ys := by
  induction xs generalizing i with
  | nil => simp [visGo, stGo]
  | cons b rest ih =>
    simp only [List.cons_append, visGo, stGo]
    split_ifs <;> simp [ih, Nat.add_assoc]

theorem stGo_append (i : Bool) (xs ys : List Nat) :
    stGo i (xs ++ ys) = stGo (stGo i xs) ys := by
  induction xs generalizing i with
  | nil => simp [stGo]
  | cons b rest ih =>
    simp only [List.cons_append, stGo]
    split_ifs <;> simp [ih]

theorem visGo_inside_of_no_m (s : List Nat) (h : 109 ∉ s) :
    visGo true s = 0 ∧ stGo true s = true := by
  induction s with
  | nil => exact ⟨rfl, rfl⟩
  | cons b rest ih =>
    simp only [List.mem_cons, not_or] at h
    have hb : b ≠ 109 := Ne.symm h.1
    have hrest := ih h.2
    by_cases h27 : b = 27
    · simp [visGo, stGo, h27, hrest.1, hrest.2]
    · simp [visGo, stGo, h27, hb, hrest.1, hrest.2]

theorem Seg.append {s t : List Nat} {m n : Nat} (hs : Seg s m) (ht : Seg t n) :
    Seg (s ++ t) (m + n) := by
  refine ⟨?_, ?_⟩
  · rw [visGo_append, hs.1, hs.2, ht.1]
  · rw [stGo_append, hs.2, ht.2]

theorem decBytesAux_digit (f : Nat) : ∀ n d, d ∈ decBytesAux f n → 48 ≤ d ∧ d ≤ 57 := by
  induction f with
  | zero => intro n d hd; simp [decBytesAux] at hd
  | succ f ih =>
    intro n d hd
    simp only [decBytesAux] at hd
    split_ifs at hd with h
    · simp only [List.mem_singleton] at hd
      omega
    · rcases List.mem_append.mp hd with h1 | h1
      · exact ih _ _ h1
      · simp only [List.mem_singleton] at h1
        have : n % 10 < 10 := Nat.mod_lt _ (by omega)
        omega

theorem decBytes_digit (n d : Nat) (hd : d ∈ decBytes n) : 48 ≤ d ∧ d ≤ 57 :=
  decBytesAux_digit _ _ _ hd

theorem ansiReset_scan (i : Bool) : visGo i ansiReset = 0 ∧ stGo i ansiReset = false := by
  cases i <;> exact ⟨by decide, by decide⟩

theorem visGo_cons_esc (i : Bool) (rest : List Nat) :
    visGo i (27 :: rest) = visGo true rest := by
  simp [visGo]

theorem stGo_cons_esc (i : Bool) (rest : List Nat) :
    stGo i (27 :: rest) = stGo true rest := by
  simp [stGo]

theorem sgrOpen_no_m (rgb : Nat × Nat × Nat) :
    109 ∉ [91, 51, 56, 59, 50, 59] ++ decBytes rgb.1 ++ [59] ++ decBytes rgb.2.1
      ++ [59] ++ decBytes rgb.2.2 := by
  intro h
  simp only [List.mem_append, List.mem_singleton] at h
  rcases h with ((((h | h) | h) | h) | h) | h
  · simp at h
  · exact absurd (decBytes_digit _ _ h).2 (by omega)
  · omega
  · exact absurd (decBytes_digit _ _ h).2 (by omega)
  · omega
  · exact absurd (decBytes_digit _ _ h).2 (by omega)

theorem sgrOpen_scan (rgb : Nat × Nat × Nat) : Seg (sgrOpen rgb) 0 := by
  have hshape : sgrOpen rgb
      = 27 :: (([91, 51, 56, 59, 50, 59] ++ decBytes rgb.1 ++ [59] ++ decBytes rgb.2.1
          ++ [59] ++ decBytes rgb.2.2) ++ [109]) := by
    simp [sgrOpen]
  have hmid := visGo_inside_of_no_m _ (sgrOpen_no_m rgb)
  constructor
  · rw [hshape, visGo_cons_esc, visGo_append, hmid.1, hmid.2]
    decide
  · rw [hshape, stGo_cons_esc, stGo_append, hmid.2]
    decide

theorem Seg_colorWrap (rgb : Nat × Nat × Nat) (s : List Nat) :
    Seg (colorWrap rgb s) (visible_len s) := by
  have h1 : colorWrap rgb s = sgrOpen rgb ++ (s ++ ansiReset) := by
    simp [colorWrap]
  have hp := sgrOpen_scan rgb
  constructor
  · rw [h1, visGo_append, hp.1, hp.2, visGo_append, (ansiReset_scan _).1]
    simp [visible_len]
  · rw [h1, stGo_append, hp.2, stGo_append, (ansiReset_scan _).2]

theorem Seg_spaces (n : Nat) : Seg (spaces n) n := by
  induction n with
  | zero => exact ⟨by decide, by decide⟩
  | succ k ih =>
    have hsp : spaces (k + 1) = [32] ++ spaces k := by
      simp [spaces, List.replicate_succ]
    rw [hsp]
    have h1 : Seg [32] 1 := ⟨by decide, by decide⟩
    simpa [Nat.add_comm] using h1.append ih

theorem Seg_dashes (n : Nat) : Seg (dashes n) n := by
  induction n with
  | zero => exact ⟨by decide, by decide⟩
  | succ k ih =>
    have hd : dashes (k + 1) = boxHorizontal ++ dashes k := by
      simp [dashes, List.replicate_succ]
    rw [hd]
    have h1 : Seg boxHorizontal 1 := ⟨by decide, by decide⟩
    simpa [Nat.add_comm] using h1.append ih

theorem Seg_of_no_esc (s : List Nat) (h : 27 ∉ s) : Seg s (scalarCount s) := by
  induction s with
  | nil => exact ⟨by decide, by decide⟩
  | cons b rest ih =>
    simp only [List.mem_cons, not_or] at h
    have hrest := ih h.2
    have hb : ¬ b = 27 := fun he => h.1 he.symm
    constructor
    · simp only [visGo, scalarCount, if_neg hb]
      by_cases hlt : b < 128
      · have hno : ¬ Nat.land b 192 = 128 := by
          have : Nat.land b 192 ≤ b := Nat.and_le_left
          omega
        simp [hlt, hno, hrest.1, Nat.add_comm]
      · by_cases hc : Nat.land b 192 = 128
        · simp [hlt, hc, hrest.1]
        · simp [hlt, hc, hrest.1, Nat.add_comm]
    · by_cases hlt : b < 128 <;> by_cases hc : Nat.land b 192 = 128 <;>
        simp [stGo, hb, hlt, hc, hrest.2]

theorem visGo_le_scalarCount (i : Bool) (s : List Nat) :
    visGo i s ≤ scalarCount s := by
  induction s generalizing i with
  | nil => simp [visGo, scalarCount]
  | cons b rest ih =>
    simp only [visGo, scalarCount]
    by_cases h27 : b = 27
    · rw [if_pos h27]
      exact le_trans (ih true) (Nat.le_add_left _ _)
    · rw [if_neg h27]
      by_cases hi : i = true
      · rw [if_pos hi]
        by_cases hm : b = 109
        · rw [if_pos hm]
          exact le_trans (ih false) (Nat.le_add_left _ _)
        · rw [if_neg hm]
          exact le_trans (ih true) (Nat.le_add_left _ _)
      · rw [if_neg hi]
        by_cases hlt : b < 128
        · rw [if_pos hlt]
          have hno : ¬ Nat.land b 192 = 128 := by
            have : Nat.land b 192 ≤ b := Nat.and_le_left
            omega
          rw [if_neg hno]
          exact Nat.add_le_add (le_refl 1) (ih false)
        · rw [if_neg hlt]
          by_cases hc : Nat.land b 192 = 128
          · rw [if_pos hc, if_pos hc]
            exact le_trans (ih false) (Nat.le_add_left _ _)
          · rw [if_neg hc, if_neg hc]
            exact Nat.add_le_add (le_refl 1) (ih false)

/-! ## Box geometry lemmas -/

theorem visible_len_le_content_width {l : List Nat} {lines : List (List Nat)}
    (h : l ∈ lines) : visible_len l ≤ content_width lines := by
  induction lines with
  | nil => cases h
  | cons a rest ih =>
    have hcw : content_width (a :: rest) = max (visible_len a) (content_width rest) := by
      simp [content_width]
    rcases List.mem_cons.mp h with rfl | h2
    · rw [hcw]; exact le_max_left _ _
    · rw [hcw]; exact le_trans (ih h2) (le_max_right _ _)

theorem content_width_le_inner (lines : List (List Nat)) (title : Option (List Nat))
    (tw : Option Nat) : content_width lines ≤ box_inner_width lines title tw :=
  le_trans (le_max_left _ _) (le_max_right _ _)

theorem title_width_le_inner (lines : List (List Nat)) (title : Option (List Nat))
    (tw : Option Nat) : title_width title ≤ box_inner_width lines title tw :=
  le_trans (le_max_right _ _) (le_max_right _ _)

theorem pad_split_sum (c : Bool) (p : Nat) :
    (pad_split c p).1 + (pad_split c p).2 = p := by
  cases c
  · simp [pad_split]
  · simp only [pad_split, if_pos]
    omega

theorem title_dashes_sum (i c : Nat) :
    (title_dashes i c).1 + (title_dashes i c).2 = i - c := by
  simp only [title_dashes]
  omega

theorem Seg_color_border_vertical (cfg : ColorConfig) :
    Seg (color_border cfg boxVertical) 1 := by
  have h := Seg_colorWrap cfg.border boxVertical
  rwa [show visible_len boxVertical = 1 from by decide] at h

theorem Seg_color_border_dashes (cfg : ColorConfig) (n : Nat) :
    Seg (color_border cfg (dashes n)) n := by
  have h := Seg_colorWrap cfg.border (dashes n)
  rwa [show visible_len (dashes n) = n from (Seg_dashes n).1] at h

theorem Seg_color_border_one (cfg : ColorConfig) (piece : List Nat)
    (h1 : visible_len piece = 1) : Seg (color_border cfg piece) 1 := by
  have h := Seg_colorWrap cfg.border piece
  rwa [h1] at h

theorem Seg_content_row (cfg : ColorConfig) (inner : Nat) (center : Bool)
    (l : List Nat) (hcl : stGo false l = false) (hle : visible_len l ≤ inner) :
    Seg (content_row cfg inner center l) (inner + 4) := by
  have hl : Seg l (visible_len l) := ⟨rfl, hcl⟩
  have h32 : Seg [32] 1 := ⟨by decide, by decide⟩
  have hcv := Seg_color_border_vertical cfg
  have hrow := ((((((hcv.append h32).append
      (Seg_spaces (pad_split center (inner - visible_len l)).1)).append hl).append
      (Seg_spaces (pad_split center (inner - visible_len l)).2)).append h32).append hcv)
  rw [show content_row cfg inner center l
      = color_border cfg boxVertical ++ [32]
        ++ spaces (pad_split center (inner - visible_len l)).1 ++ l
        ++ spaces (pad_split center (inner - visible_len l)).2 ++ [32]
        ++ color_border cfg boxVertical from rfl]
  have hsum := pad_split_sum center (inner - visible_len l)
  have : 1 + 1 + (pad_split center (inner - visible_len l)).1 + visible_len l
      + (pad_split center (inner - visible_len l)).2 + 1 + 1 = inner + 4 := by
    omega
  rwa [this] at hrow

/-- **C1** (amended): for every `build_box` call whose content lines each have
all ANSI escapes terminated (the scanner ends outside an escape) and whose
title, if any, contains no escape character, every line of the returned box
has the same visible width, namely `box_inner_width + 4`, where
`box_inner_width = max(content_width, title_width, requested minimum or 0)` —
so `content_width + 4` when no title or caller-supplied minimum overrides it. -/
theorem build_box_uniform_width (cfg : ColorConfig) (lines : List (List Nat))
    (title : Option (List Nat)) (tw th : Option Nat) (center : Bool)
    (hlines : ∀ l ∈ lines, stGo false l = false)
    (htitle : ∀ t ∈ title, 27 ∉ t) :
    ∀ row ∈ build_box cfg lines title tw th center,
      visible_len row = box_inner_width lines title tw + 4 := by
  intro row hrow
  have hcv := Seg_color_border_vertical cfg
  have hcTL := Seg_color_border_one cfg boxTopLeft (by decide)
  have hcTR := Seg_color_border_one cfg boxTopRight (by decide)
  have hcBL := Seg_color_border_one cfg boxBottomLeft (by decide)
  have hcBR := Seg_color_border_one cfg boxBottomRight (by decide)
  have hchl := Seg_color_border_dashes cfg (box_inner_width lines title tw + 2)
  have hpad : Seg (color_border cfg boxVertical
      ++ spaces (box_inner_width lines title tw + 2)
      ++ color_border cfg boxVertical) (box_inner_width lines title tw + 4) := by
    have h := (hcv.append (Seg_spaces (box_inner_width lines title tw + 2))).append hcv
    rwa [show 1 + (box_inner_width lines title tw + 2) + 1
        = box_inner_width lines title tw + 4 from by omega] at h
  have hbot : Seg (color_border cfg boxBottomLeft
      ++ color_border cfg (dashes (box_inner_width lines title tw + 2))
      ++ color_border cfg boxBottomRight) (box_inner_width lines title tw + 4) := by
    have h := (hcBL.append hchl).append hcBR
    rwa [show 1 + (box_inner_width lines title tw + 2) + 1
        = box_inner_width lines title tw + 4 from by omega] at h
  simp only [build_box, List.mem_append, List.mem_singleton, List.mem_replicate,
    List.mem_map] at hrow
  rcases hrow with ((((htop | hp) | hc) | hp) | hb)
  · -- top border
    cases title with
    | none =>
      subst htop
      have h := (hcTL.append hchl).append hcTR
      rw [show 1 + (box_inner_width lines none tw + 2) + 1
          = box_inner_width lines none tw + 4 from by omega] at h
      exact h.1
    | some t =>
      subst htop
      have hnt : 27 ∉ t := htitle t rfl
      have hts := Seg_of_no_esc t hnt
      have htitleSeg : Seg (color_title cfg t) (scalarCount t) := by
        have h := Seg_colorWrap cfg.title t
        rwa [show visible_len t = scalarCount t from hts.1] at h
      have h32 : Seg [32] 1 := ⟨by decide, by decide⟩
      have hld := Seg_color_border_dashes cfg
        (title_dashes (box_inner_width lines (some t) tw) (scalarCount t)).1
      have hrd := Seg_color_border_dashes cfg
        (title_dashes (box_inner_width lines (some t) tw) (scalarCount t)).2
      have h := (((((hcTL.append hld).append h32).append htitleSeg).append h32).append
        hrd).append hcTR
      have hle : scalarCount t ≤ box_inner_width lines (some t) tw := by
        have := title_width_le_inner lines (some t) tw
        simpa [title_width] using this
      have hsum := title_dashes_sum (box_inner_width lines (some t) tw) (scalarCount t)
      rw [show 1 + (title_dashes (box_inner_width lines (some t) tw) (scalarCount t)).1
          + 1 + scalarCount t + 1
          + (title_dashes (box_inner_width lines (some t) tw) (scalarCount t)).2 + 1
          = box_inner_width lines (some t) tw + 4 from by omega] at h
      exact h.1
  · -- top padding rows
    rw [hp.2]
    exact hpad.1
  · -- content rows
    obtain ⟨l, hl, hrow⟩ := hc
    subst hrow
    have h := Seg_content_row cfg (box_inner_width lines title tw) center l
      (hlines l hl)
      (le_trans (visible_len_le_content_width hl) (content_width_le_inner lines title tw))
    exact h.1
  · -- bottom padding rows
    rw [hp.2]
    exact hpad.1
  · -- bottom border
    subst hb
    exact hbot.1

/-! ## Further helper lemmas -/

theorem visGo_strip (s : List Nat) : ∀ i, visGo i s = visGo false (strip_ansi_go i s) := by
  induction s with
  | nil => intro i; cases i <;> rfl
  | cons b rest ih =>
    intro i
    by_cases h27 : b = 27
    · simp [visGo, strip_ansi_go, h27, ih true]
    · by_cases hi : i = true
      · by_cases hm : b = 109
        · simp [visGo, strip_ansi_go, h27, hi, hm, ih false]
        · simp [visGo, strip_ansi_go, h27, hi, hm, ih true]
      · have hif : i = false := by simpa using hi
        subst hif
        by_cases hlt : b < 128
        · simp [visGo, strip_ansi_go, h27, hlt, ih false]
        · by_cases hc : Nat.land b 192 = 128
          · simp [visGo, strip_ansi_go, h27, hlt, hc, ih false]
          · simp [visGo, strip_ansi_go, h27, hlt, hc, ih false]

theorem visible_len_format_kv (cfg : ColorConfig) (kv : List Nat × List Nat) :
    visible_len (format_kv cfg kv) = visible_len kv.1 + 2 + visible_len kv.2 := by
  have h2 : Seg [58, 32] 2 := ⟨by decide, by decide⟩
  have h := ((Seg_colorWrap cfg.key kv.1).append h2).append (Seg_colorWrap cfg.value kv.2)
  simpa [format_kv, color_key, color_value, visible_len] using h.1

theorem spec_scw_eq (cfg : ColorConfig) (sections : List Section) :
    spec_sections_content_width cfg sections = sections_content_width sections := by
  unfold spec_sections_content_width sections_content_width
  have hfn : (fun kv : List Nat × List Nat => visible_len (format_kv cfg kv))
      = fun kv => visible_len kv.1 + 2 + visible_len kv.2 :=
    funext (visible_len_format_kv cfg)
  rw [hfn]

theorem build_box_length (cfg : ColorConfig) (lines : List (List Nat))
    (title : Option (List Nat)) (tw th : Option Nat) (center : Bool) :
    (build_box cfg lines title tw th center).length = box_total_height lines th := by
  have hge : lines.length + 2 ≤ box_total_height lines th := le_max_right _ _
  simp only [build_box, List.length_append, List.length_replicate, List.length_map,
    List.length_singleton]
  omega

theorem build_box_ne_nil (cfg : ColorConfig) (lines : List (List Nat))
    (title : Option (List Nat)) (tw th : Option Nat) (center : Bool) :
    build_box cfg lines title tw th center ≠ [] := by
  intro h
  have hl := build_box_length cfg lines title tw th center
  rw [h] at hl
  have hge : lines.length + 2 ≤ box_total_height lines th := le_max_right _ _
  simp at hl
  omega

theorem build_sections_lines_ne_nil (cfg : ColorConfig) (s : Section)
    (rest : List Section) (tw : Option Nat) :
    build_sections_lines cfg (s :: rest) tw ≠ [] := by
  simp only [build_sections_lines, List.map_cons, List.flatten_cons, ne_eq,
    List.append_eq_nil]
  intro h
  exact build_box_ne_nil cfg _ _ _ _ _ h.1

theorem flatten_newline_ne_nil (L : List (List Nat)) (h : L ≠ []) :
    (L.map fun l => l ++ [10]).flatten ≠ [] := by
  obtain ⟨x, xs, rfl⟩ := List.exists_cons_of_ne_nil h
  simp

theorem render_stacked_ne_nil (art_box sections_box : List (List Nat))
    (h : art_box ≠ []) : render_stacked art_box sections_box ≠ [] := by
  unfold render_stacked
  apply flatten_newline_ne_nil
  simp [h]

theorem render_side_by_side_ne_nil (art_box sections_box : List (List Nat))
    (h : art_box ≠ []) : render_side_by_side art_box sections_box ≠ [] := by
  unfold render_side_by_side
  intro hc
  rw [List.flatten_eq_nil_iff] at hc
  have h0 : 0 < max art_box.length sections_box.length :=
    lt_of_lt_of_le (List.length_pos.mpr h) (le_max_left _ _)
  have hmem : (0 : Nat) ∈ List.range (max art_box.length sections_box.length) :=
    List.mem_range.mpr h0
  have := hc _ (List.mem_map_of_mem _ hmem)
  simp at this

theorem env_tier_eq (c r : Option (List Nat)) :
    (get_size_from_env c r).getD (80, 24) = spec_env_tier c r := by
  cases c with
  | none => simp [get_size_from_env, spec_env_tier]
  | some cs =>
    cases hc : parse_u16 cs with
    | none => simp [get_size_from_env, spec_env_tier, hc]
    | some cv =>
      cases r with
      | none => simp [get_size_from_env, spec_env_tier, hc]
      | some rs =>
        cases hr : parse_u16 rs with
        | none => simp [get_size_from_env, spec_env_tier, hc, hr]
        | some rv => simp [get_size_from_env, spec_env_tier, hc, hr]

/-! ## Claim theorems -/

/-- **C1** counterexample: with a content line consisting of a lone ESC byte
(an unterminated escape), the box rows do not all have the same visible width
(the content row measures 3 while the borders measure 4). -/
theorem build_box_uniform_width_cex :
    ¬ ∀ r1 ∈ build_box default_colors [[27]] none none none false,
        ∀ r2 ∈ build_box default_colors [[27]] none none none false,
          visible_len r1 = visible_len r2 := by decide

/-- Witness for **C1**: the amended theorem applied to the concrete box of
`["a", "bb"]` with no title: its first row measures `content_width + 4 = 6`. -/
theorem build_box_uniform_width_witness :
    visible_len ((build_box default_colors [[97], [98, 98]] none none none false).headD [])
      = box_inner_width [[97], [98, 98]] none none + 4 :=
  build_box_uniform_width default_colors [[97], [98, 98]] none none none false
    (by decide) (by simp) _ (by decide)

/-- **C3**: `visible_len` is escape-transparent — it returns the same value on
`s` and on `s` with all ANSI escape sequences (ESC up to and including the
next `m` byte) removed; in particular
`visible_len "\x1b[31mhi\x1b[0m" = 2`. -/
theorem visible_len_strip_ansi :
    (∀ s, visible_len s = visible_len (strip_ansi s))
    ∧ visible_len [27, 91, 51, 49, 109, 104, 105, 27, 91, 48, 109] = 2 :=
  ⟨fun s => visGo_strip s false, by decide⟩

/-- **C10**: `visible_len` is total on arbitrary byte content, and for any
string containing an ESC byte never followed by an `m` byte, every byte from
that ESC to the end contributes zero width — the function returns the visible
width of only the text before the unterminated escape. -/
theorem visible_len_unterminated_escape (pre suf : List Nat) (h : 109 ∉ suf) :
    visible_len (pre ++ 27 :: suf) = visible_len pre := by
  have hs := visGo_inside_of_no_m suf h
  rw [visible_len, visGo_append, visGo_cons_esc, hs.1]
  simp [visible_len]

/-- Witness for **C10**: `"hi" ++ ESC ++ "[31"` measures the same as `"hi"`. -/
theorem visible_len_unterminated_escape_witness :
    visible_len ([104, 105] ++ 27 :: [91, 51, 49]) = visible_len [104, 105] :=
  visible_len_unterminated_escape [104, 105] [91, 51, 49] (by decide)

/-- **C7**: centered content splits padding as `left = pad / 2` and
`right = pad - left`, so the two sides differ by at most one with any odd
remainder on the right; the title's surrounding dashes in the top border are
split the same way, with any odd remainder on the right. -/
theorem centering_symmetry (p i c : Nat) :
    (pad_split true p).1 ≤ (pad_split true p).2
    ∧ (pad_split true p).2 - (pad_split true p).1 ≤ 1
    ∧ (pad_split true p).1 + (pad_split true p).2 = p
    ∧ (title_dashes i c).1 ≤ (title_dashes i c).2
    ∧ (title_dashes i c).2 - (title_dashes i c).1 ≤ 1
    ∧ (title_dashes i c).1 + (title_dashes i c).2 = i - c := by
  simp only [pad_split, title_dashes, if_pos]
  refine ⟨by omega, by omega, by omega, by omega, by omega, by omega⟩

/-- **C6**: with `minWidth = W`, the inner width is
`max(contentWidth, titleWidth, W)`, hence at least `W` and at least every
content line's and the title's visible width; and every content line appears
verbatim (as an infix) in some row of the box — content is never truncated. -/
theorem build_box_monotonic_sizing (cfg : ColorConfig) (lines : List (List Nat))
    (title : Option (List Nat)) (W : Nat) (th : Option Nat) (center : Bool) :
    box_inner_width lines title (some W)
      = max (max (content_width lines) (title_width title)) W
    ∧ W ≤ box_inner_width lines title (some W)
    ∧ (∀ l ∈ lines, visible_len l ≤ box_inner_width lines title (some W))
    ∧ (∀ t ∈ title, visible_len t ≤ box_inner_width lines title (some W))
    ∧ (∀ l ∈ lines, ∃ row ∈ build_box cfg lines title (some W) th center,
        l <:+: row) := by
  refine ⟨?_, ?_, ?_, ?_, ?_⟩
  · simp [box_inner_width, Nat.max_comm]
  · exact le_max_left _ _
  · intro l hl
    exact le_trans (visible_len_le_content_width hl)
      (content_width_le_inner lines title (some W))
  · intro t ht
    have h1 : visible_len t ≤ scalarCount t := visGo_le_scalarCount false t
    have h2 : title_width title = scalarCount t := by
      cases title with
      | none => cases ht
      | some t2 =>
        have : t2 = t := by simpa using ht
        subst this
        rfl
    exact le_trans h1 (h2 ▸ title_width_le_inner lines title (some W))
  · intro l hl
    refine ⟨content_row cfg (box_inner_width lines title (some W)) center l, ?_, ?_⟩
    · simp only [build_box, List.mem_append, List.mem_map]
      exact Or.inl (Or.inl (Or.inr ⟨l, hl, rfl⟩))
    · exact ⟨color_border cfg boxVertical ++ [32]
          ++ spaces (pad_split center (box_inner_width lines title (some W)
            - visible_len l)).1,
        spaces (pad_split center (box_inner_width lines title (some W)
            - visible_len l)).2 ++ [32] ++ color_border cfg boxVertical,
        by simp [content_row, List.append_assoc]⟩

/-- Witness for **C6**: with lines `["a"]` and `W = 5` the inner width is at
least `5`, and the line `"a"` is an infix of some row of the box. -/
theorem build_box_monotonic_sizing_witness :
    5 ≤ box_inner_width [[97]] none (some 5)
    ∧ ∃ row ∈ build_box default_colors [[97]] none (some 5) none false,
        [97] <:+: row :=
  ⟨(build_box_monotonic_sizing default_colors [[97]] none 5 none false).2.1,
    (build_box_monotonic_sizing default_colors [[97]] none 5 none false).2.2.2.2
      [97] (by decide)⟩

/-- **C9** (amended): in a side-by-side composition the art box is built with
`minHeight` equal to the sections stack's line count and centered content, but
its line count equals `max(stack count, art lines + 2)`; it equals the stack's
line count exactly when the stack has at least `art lines + 2` rows. -/
theorem side_by_side_art_box_height (cfg : ColorConfig) (art : List (List Nat))
    (sections : List Section) :
    (build_box cfg art none none
        (some (build_sections_lines cfg sections none).length) true).length
      = max (build_sections_lines cfg sections none).length (art.length + 2)
    ∧ (art.length + 2 ≤ (build_sections_lines cfg sections none).length →
        (build_box cfg art none none
            (some (build_sections_lines cfg sections none).length) true).length
          = (build_sections_lines cfg sections none).length) := by
  constructor
  · rw [build_box_length]
    simp [box_total_height]
  · intro h
    rw [build_box_length]
    simp only [box_total_height, Option.getD_some]
    omega

/-- **C9** counterexample: with a 5-line art block and one section holding one
key/value line (sections stack of 3 rows), at terminal geometry 200x50 the
wide side-by-side branch is selected, yet the art box has 7 rows, not 3. -/
theorem side_by_side_art_box_height_cex :
    spec_select default_colors (List.replicate 5 [97]) [] []
        [⟨[67], [([75], [86])]⟩] none 200 50 = LayoutChoice.sideWide
    ∧ (build_box default_colors (List.replicate 5 [97]) none none
        (some (build_sections_lines default_colors [⟨[67], [([75], [86])]⟩] none).length)
        true).length
      ≠ (build_sections_lines default_colors [⟨[67], [([75], [86])]⟩] none).length := by
  decide

/-- Witness for **C9**: with a 1-line art block and a 3-row sections stack the
art box's height does equal the stack's. -/
theorem side_by_side_art_box_height_witness :
    (build_box default_colors [[97]] none none
        (some (build_sections_lines default_colors [⟨[67], [([75], [86])]⟩] none).length)
        true).length
      = (build_sections_lines default_colors [⟨[67], [([75], [86])]⟩] none).length :=
  (side_by_side_art_box_height default_colors [[97]] [⟨[67], [([75], [86])]⟩]).2
    (by decide)

/-- **C4**: the geometry `draw_layout` uses never fails and follows exactly the
three-tier cascade: the OS window-size query (accepted only when both
dimensions are strictly positive), then the two environment variables (accepted
when both parse as decimal integers), then the fixed default of 80x24. -/
theorem probe_three_tiers (io : Option (Nat × Nat)) (c r : Option (List Nat)) :
    probed_geometry io c r = spec_probe io c r := by
  cases io with
  | none => simpa [probed_geometry, get_terminal_size, spec_probe] using env_tier_eq c r
  | some p =>
    obtain ⟨cols, rows⟩ := p
    by_cases h : 0 < cols ∧ 0 < rows
    · simp [probed_geometry, get_terminal_size, spec_probe, h]
    · simpa [probed_geometry, get_terminal_size, spec_probe, h] using env_tier_eq c r

/-- **C5** counterexample: with the OS query failing and the environment
variables set to `"0"` and `"5"`, the environment tier hands the renderer a
geometry with zero columns. -/
theorem probe_positive_cex :
    ¬ (0 < (probed_geometry none (some [48]) (some [53])).1
        ∧ 0 < (probed_geometry none (some [48]) (some [53])).2) := by decide

/-- **C5** (amended): the OS-query tier and the fixed default always yield
strictly positive dimensions, but the environment tier returns whatever the
variables parse to; the geometry the renderer uses is strictly positive
provided every successful environment parse is strictly positive. -/
theorem probe_positive_of_env_positive (io : Option (Nat × Nat))
    (c r : Option (List Nat))
    (henv : ∀ cv rv, get_size_from_env c r = some (cv, rv) → 0 < cv ∧ 0 < rv) :
    0 < (probed_geometry io c r).1 ∧ 0 < (probed_geometry io c r).2 := by
  have hfall : 0 < ((get_size_from_env c r).getD (80, 24)).1
      ∧ 0 < ((get_size_from_env c r).getD (80, 24)).2 := by
    cases hge : get_size_from_env c r with
    | none => simp
    | some p =>
      obtain ⟨cv, rv⟩ := p
      simpa using henv cv rv hge
  cases io with
  | none => simpa [probed_geometry, get_terminal_size] using hfall
  | some p =>
    obtain ⟨cols, rows⟩ := p
    by_cases h : 0 < cols ∧ 0 < rows
    · simp [probed_geometry, get_terminal_size, h]
    · simpa [probed_geometry, get_terminal_size, h] using hfall

/-- Witness for **C5**: a successful OS query of 120x40 yields a strictly
positive geometry (the environment hypothesis is vacuous with no variables
set). -/
theorem probe_positive_witness :
    0 < (probed_geometry (some (120, 40)) none none).1
    ∧ 0 < (probed_geometry (some (120, 40)) none none).2 :=
  probe_positive_of_env_positive (some (120, 40)) none none
    (by intro cv rv hge; simp [get_size_from_env] at hge)

/-- **C8** (amended): `draw_layout` never fails and returns non-empty output
for every geometry, art set and non-empty sections list (falling through to
sections-only when nothing fits); with an empty sections list and no fitting
art branch the output is empty. -/
theorem draw_layout_total_nonempty (cfg : ColorConfig)
    (wide medium narrow : List (List Nat)) (sections : List Section)
    (smol : Option (List (List Nat))) (term : Option (Nat × Nat))
    (h : sections ≠ []) :
    draw_layout cfg wide medium narrow sections smol term ≠ [] := by
  obtain ⟨s, rest, rfl⟩ := List.exists_cons_of_ne_nil h
  simp only [draw_layout]
  split_ifs with h1 h2 h3 h4 h5
  · exact render_side_by_side_ne_nil _ _ (build_box_ne_nil _ _ _ _ _ _)
  · exact render_side_by_side_ne_nil _ _ (build_box_ne_nil _ _ _ _ _ _)
  · exact render_side_by_side_ne_nil _ _ (build_box_ne_nil _ _ _ _ _ _)
  · exact render_stacked_ne_nil _ _ (build_box_ne_nil _ _ _ _ _ _)
  · exact render_stacked_ne_nil _ _ (build_box_ne_nil _ _ _ _ _ _)
  · exact flatten_newline_ne_nil _ (build_sections_lines_ne_nil cfg s rest none)

/-- **C8** counterexample: with an empty sections list, wide/medium art 76
columns wide, narrow art 23 lines tall, no compact art and the default 80x24
geometry (OS query result absent), no branch fits and the output is the empty
string. -/
theorem draw_layout_total_nonempty_cex :
    draw_layout default_colors [List.replicate 76 97] [List.replicate 76 97]
      (List.replicate 23 []) [] none none = [] := by
  set_option maxRecDepth 10000 in decide

/-- Witness for **C8**: one section with one key/value line renders to
non-empty output at the default geometry. -/
theorem draw_layout_total_nonempty_witness :
    draw_layout default_colors [] [] [] [⟨[67], [([75], [86])]⟩] none none ≠ [] :=
  draw_layout_total_nonempty default_colors [] [] [] [⟨[67], [([75], [86])]⟩]
    none none (List.cons_ne_nil _ _)

/-- **C2**: `draw_layout` selects its layout exactly by the spec's six-row
ordered priority list (first match wins): wide side-by-side, compact
side-by-side (when the compact variant exists), medium side-by-side, compact
stacked (when it exists), narrow stacked, sections-only — with the spec's
width and height thresholds over `sectionsContentWidth`. -/
theorem draw_layout_priority (cfg : ColorConfig)
    (wide medium narrow : List (List Nat)) (sections : List Section)
    (smol : Option (List (List Nat))) (term : Option (Nat × Nat)) :
    draw_layout cfg wide medium narrow sections smol term
      = layout_exec cfg wide medium narrow sections smol
          (spec_select cfg wide medium narrow sections smol
            (term.getD (80, 24)).1 (term.getD (80, 24)).2) := by
  have hscw := spec_scw_eq cfg sections
  have hsm : art_width (smol.getD []) = (smol.map art_width).getD 0 := by
    cases smol <;> simp [art_width]
  have h4e : (smol.getD []).length + 2 + (sections.map fun s => s.lines.length + 2).sum
      = (sections.map fun s => s.lines.length + 2).sum + (smol.getD []).length + 2 := by
    omega
  have h5e : narrow.length + 2 + (sections.map fun s => s.lines.length + 2).sum
      = (sections.map fun s => s.lines.length + 2).sum + (narrow.length + 2) := by
    omega
  simp only [draw_layout, spec_select, spec_side_width, spec_stack_height, hscw,
    hsm, h4e, h5e]
  split_ifs <;> rfl

end Slowfetch
